import Mathlib

/-!
Shallow embedding of the resident-directory backend
(`src/api/repositories/residents.py`, `src/api/routes/residents.py`,
`src/api/core/audit.py`) and proofs about its specification claims.

Conventions of the embedding:
* Timestamps are `Nat` (an abstract clock value `now` is passed where the
  source calls `NOW()` / `datetime.now`).
* The database is explicit state: the residents table is a `List Resident`,
  the audit table a `List AuditEntry`; the SQL statements of the repository
  layer are translated row-by-row.
* Python string operations are modelled over the character list of a
  `String`: `pyStrip` models `str.strip`, `pyLower` models `str.lower`,
  `pyStr` models `str(n)` for a non-negative integer, `pyInt?` models
  `int(s)` on non-negative decimal literals (the only integers that occur:
  ids printed by the export and hand-written CSV ids; Python's `int` also
  accepts signs and underscores, which can only make additional rows parse
  and then fail the not-found lookup, the same row-failure outcome).
* Each HTTP handler is a function from the committed state to a new state
  plus a result; raising `HTTPException` before `db.commit()` is modelled
  by returning the original state (the session rolls back, so neither the
  mutation nor any audit write persists).
-/

namespace ResidentDirectory

/-- Model of `str.strip` on a character list: drop whitespace from both ends. -/
def pyStripChars (l : List Char) : List Char :=
  ((l.dropWhile Char.isWhitespace).reverse.dropWhile Char.isWhitespace).reverse

/-- Model of Python `str.strip()`. -/
def pyStrip (s : String) : String := ⟨pyStripChars s.data⟩

/-- Model of Python `str.lower()`. -/
def pyLower (s : String) : String := ⟨s.data.map Char.toLower⟩

/-- Decimal digit characters of `n`, most significant first: model of `str(n)`
for a natural number. -/
def natDecChars (n : Nat) : List Char :=
  if _h : n < 10 then [Nat.digitChar n]
  else natDecChars (n / 10) ++ [Nat.digitChar (n % 10)]
  decreasing_by exact Nat.div_lt_self (by omega) (by omega)

/-- Model of Python `str(n)` for a natural number. -/
def pyStr (n : Nat) : String := ⟨natDecChars n⟩

/-- Numeric value of a decimal digit string (helper for `pyInt?`). -/
def decDigitsVal (l : List Char) : Nat :=
  l.foldl (fun a c => a * 10 + (c.toNat - 48)) 0

/-- Model of Python `int(s)` on non-negative decimal literals:
`some` of the value when `s` is a non-empty all-digit string, `none`
(a raised `ValueError`) otherwise. -/
def pyInt? (s : String) : Option Nat :=
  if s.data ≠ [] ∧ s.data.all Char.isDigit then some (decDigitsVal s.data) else none

/-- A row of the `residents` table (`_row_to_resident` shape). -/
structure Resident where
  id : Nat
  full_name : String
  unit : String
  building : Option String
  floor : Option String
  phone : Option String
  email : Option String
  photo_url : Option String
  notes : Option String
  is_active : Bool
  created_at : Nat
  updated_at : Nat
  deactivated_at : Option Nat
deriving Repr, DecidableEq

/-- Authenticated principal (`src/api/core/auth.py`, `CurrentUser`). -/
structure CurrentUser where
  id : Nat
  email : String
  full_name : Option String
  roles : List String
deriving Repr, DecidableEq

/-- Search/filter parameters of `list_residents` / `residents_list`. -/
structure ListFilter where
  q : Option String := none
  building : Option String := none
  floor : Option String := none
  unit : Option String := none
  is_active : Option Bool := none
deriving Repr, DecidableEq

/-- Structured model of the freeform `metadata` JSON written by the audit
call sites in `routes/residents.py`. -/
inductive AuditMeta where
  | importRow (row : Nat)
  | importSummary (created updated skipped : Nat)
  | exportFilters (filters : ListFilter)
  | uploadFilename (filename : String)
deriving Repr, DecidableEq

/-- A row of the `audit_log` table (`write_audit_log` insert).  The `before`
and `after` JSON snapshots are serialized verbatim from resident rows, so we
model them as `Option Resident`. -/
structure AuditEntry where
  actor_user_id : Option Nat
  actor_email : Option String
  action : String
  entity_type : Option String
  entity_id : Option String
  before : Option Resident
  after : Option Resident
  metadata : Option AuditMeta
  created_at : Nat
deriving Repr, DecidableEq

/-- Database state: residents table, the id sequence backing the
`residents.id` primary key, and the audit table. -/
structure St where
  residents : List Resident
  nextId : Nat
  audit : List AuditEntry
deriving Repr, DecidableEq

/-- `get_resident`: `SELECT * FROM residents WHERE id = :id` (first row). -/
def get_resident (db : List Resident) (rid : Nat) : Option Resident :=
  db.find? (fun r => r.id == rid)

/-- The dynamic patch dict built from `ResidentUpdate.model_dump(exclude_unset=True)`
or by the CSV importer.  The outer `Option` is key presence in the dict; the
inner `Option` on nullable columns is SQL `NULL`. -/
structure ResidentPatch where
  full_name : Option String := none
  unit : Option String := none
  building : Option (Option String) := none
  floor : Option (Option String) := none
  phone : Option (Option String) := none
  email : Option (Option String) := none
  notes : Option (Option String) := none
  is_active : Option Bool := none
deriving Repr, DecidableEq

/-- `if not patch:` — the patch dict has no keys. -/
def ResidentPatch.isEmpty (p : ResidentPatch) : Bool :=
  p.full_name.isNone && p.unit.isNone && p.building.isNone && p.floor.isNone &&
  p.phone.isNone && p.email.isNone && p.notes.isNone && p.is_active.isNone

/-- Effect of the dynamic `UPDATE residents SET ... , deactivated_at = CASE ...`
statement on one matching row: present patch keys overwrite their column, and
`deactivated_at` is set to `NOW()` when the patch carries `is_active = FALSE`,
cleared when it carries `is_active = TRUE`, kept otherwise. -/
def applyPatch (now : Nat) (p : ResidentPatch) (r : Resident) : Resident :=
  { r with
    full_name := p.full_name.getD r.full_name
    unit := p.unit.getD r.unit
    building := p.building.getD r.building
    floor := p.floor.getD r.floor
    phone := p.phone.getD r.phone
    email := p.email.getD r.email
    notes := p.notes.getD r.notes
    is_active := p.is_active.getD r.is_active
    deactivated_at :=
      match p.is_active with
      | some false => some now
      | some true => none
      | none => r.deactivated_at }

/-- `update_resident`: empty patch short-circuits to `get_resident` with no
write; otherwise the `UPDATE ... WHERE id = :id RETURNING *` statement patches
every matching row and returns the (first) updated row, or `None` when no row
matches. -/
def update_resident (now : Nat) (db : List Resident) (rid : Nat) (p : ResidentPatch) :
    Option Resident × List Resident :=
  if p.isEmpty then (get_resident db rid, db)
  else
    match get_resident db rid with
    | none => (none, db)
    | some r =>
      (some (applyPatch now p r),
       db.map (fun x => if x.id = rid then applyPatch now p x else x))

/-- Column values supplied to the `INSERT INTO residents (...)` statement of
`create_resident`. -/
structure ResidentCreateData where
  full_name : String
  unit : String
  building : Option String
  floor : Option String
  phone : Option String
  email : Option String
  photo_url : Option String
  notes : Option String
  is_active : Bool
deriving Repr, DecidableEq

/-- `create_resident`: the `INSERT` lists only the nine columns above, so the
remaining columns take their defaults.  Modelled from the spec: the schema DDL
is not under `src/`; per the spec the store "assigns id, timestamps" on create,
and `deactivated_at`, being listed as optional and only ever set by an
`is_active` transition, defaults to null. -/
def create_resident (now : Nat) (nid : Nat) (db : List Resident)
    (d : ResidentCreateData) : Resident × List Resident :=
  let r : Resident :=
    { id := nid
      full_name := d.full_name
      unit := d.unit
      building := d.building
      floor := d.floor
      phone := d.phone
      email := d.email
      photo_url := d.photo_url
      notes := d.notes
      is_active := d.is_active
      created_at := now
      updated_at := now
      deactivated_at := none }
  (r, db ++ [r])

/-- `set_resident_photo_url`: `UPDATE residents SET photo_url = :photo_url
WHERE id = :id RETURNING *`. -/
def set_resident_photo_url (db : List Resident) (rid : Nat) (url : String) :
    Option Resident × List Resident :=
  match get_resident db rid with
  | none => (none, db)
  | some r =>
    (some { r with photo_url := some url },
     db.map (fun x => if x.id = rid then { x with photo_url := some url } else x))

/-- `write_audit_log` (`src/api/core/audit.py`): one `INSERT INTO audit_log`. -/
def write_audit_log (now : Nat) (st : St) (actor : Option CurrentUser)
    (action : String) (entity_type entity_id : Option String)
    (before after : Option Resident) (metadata : Option AuditMeta) : St :=
  { st with
    audit := st.audit ++
      [{ actor_user_id := actor.map (·.id)
         actor_email := actor.map (·.email)
         action := action
         entity_type := entity_type
         entity_id := entity_id
         before := before
         after := after
         metadata := metadata
         created_at := now }] }

/-- The payload of `POST /residents` (`ResidentCreate` schema; `is_active`
defaults to `True` at the schema level). -/
structure ResidentCreatePayload where
  full_name : String
  unit : String
  building : Option String := none
  floor : Option String := none
  phone : Option String := none
  email : Option String := none
  notes : Option String := none
  is_active : Bool := true
deriving Repr, DecidableEq

/-- `HTTPException(status_code, detail)`. -/
structure HErr where
  statusCode : Nat
  detail : String
deriving Repr, DecidableEq

def notFoundErr : HErr := ⟨404, "Resident not found"⟩

/-- `residents_create` (`POST /residents`): insert, one `CREATE_RESIDENT`
audit entry with `before=None`, commit. -/
def residents_create (now : Nat) (user : CurrentUser) (st : St)
    (payload : ResidentCreatePayload) : St × Resident :=
  let (created, db') := create_resident now st.nextId st.residents
    { full_name := payload.full_name
      unit := payload.unit
      building := payload.building
      floor := payload.floor
      phone := payload.phone
      email := payload.email
      photo_url := none
      notes := payload.notes
      is_active := payload.is_active }
  let st' := write_audit_log now { st with residents := db', nextId := st.nextId + 1 }
    (some user) "CREATE_RESIDENT" (some "resident") (some (pyStr created.id))
    none (some created) none
  (st', created)

/-- `residents_update` (`PUT /residents/{id}`): read `before`, 404 when absent
(rollback: original state returned), patch, one `UPDATE_RESIDENT` audit entry,
commit. -/
def residents_update (now : Nat) (user : CurrentUser) (st : St) (rid : Nat)
    (payload : ResidentPatch) : St × Except HErr Resident :=
  match get_resident st.residents rid with
  | none => (st, .error notFoundErr)
  | some before =>
    let (updOpt, db') := update_resident now st.residents rid payload
    match updOpt with
    | none => (st, .error notFoundErr)
    | some updated =>
      (write_audit_log now { st with residents := db' } (some user)
        "UPDATE_RESIDENT" (some "resident") (some (pyStr rid))
        (some before) (some updated) none,
       .ok updated)

/-- `residents_deactivate` (`PATCH /residents/{id}/deactivate`): read `before`,
404 when absent, patch `{is_active: False}`, one `DEACTIVATE_RESIDENT` audit
entry with `after` the raw optional update result, commit.  (The `none` branch
after a successful `before` read is sequentially unreachable; the source would
commit the audit write and then fail response validation, modelled as a 500
after the committed state.) -/
def residents_deactivate (now : Nat) (user : CurrentUser) (st : St) (rid : Nat) :
    St × Except HErr Resident :=
  match get_resident st.residents rid with
  | none => (st, .error notFoundErr)
  | some before =>
    let (updOpt, db') := update_resident now st.residents rid { is_active := some false }
    let st' := write_audit_log now { st with residents := db' } (some user)
      "DEACTIVATE_RESIDENT" (some "resident") (some (pyStr rid))
      (some before) updOpt none
    match updOpt with
    | some u => (st', .ok u)
    | none => (st', .error ⟨500, "Internal Server Error"⟩)

/-- `settings.public_base_url` handling of `_public_photo_url`: empty or
unset base falls back to a relative `/uploads/...` URL. -/
def publicPhotoUrl (base : Option String) (filename : String) : String :=
  match base with
  | none => "/uploads/" ++ filename
  | some b => if b = "" then "/uploads/" ++ filename else b ++ "/uploads/" ++ filename

def allowedPhotoExts : List String := [".jpg", ".jpeg", ".png", ".webp", ".gif", ""]

/-- `upload_photo` (`POST /residents/{id}/photo`): read `before`, 404 when
absent; reject unknown extensions (400) and bodies over 5 MiB (400); store the
file (blob store, outside the model), set `photo_url`, one
`UPLOAD_RESIDENT_PHOTO` audit entry with `after` the raw optional update
result, commit. -/
def upload_photo (now : Nat) (user : CurrentUser) (baseUrl : Option String)
    (st : St) (rid : Nat) (ext : String) (contentLen : Nat) :
    St × Except HErr Resident :=
  match get_resident st.residents rid with
  | none => (st, .error notFoundErr)
  | some before =>
    if ext ∈ allowedPhotoExts then
      if contentLen > 5 * 1024 * 1024 then (st, .error ⟨400, "File too large (max 5MB)"⟩)
      else
        let filename := "resident_" ++ pyStr rid ++ (if ext = "" then ".jpg" else ext)
        let url := publicPhotoUrl baseUrl filename
        let (updOpt, db') := set_resident_photo_url st.residents rid url
        let st' := write_audit_log now { st with residents := db' } (some user)
          "UPLOAD_RESIDENT_PHOTO" (some "resident") (some (pyStr rid))
          (some before) updOpt (some (.uploadFilename filename))
        match updOpt with
        | some u => (st', .ok u)
        | none => (st', .error ⟨500, "Internal Server Error"⟩)
    else (st, .error ⟨400, "Unsupported file type"⟩)

/-- NULLS LAST key for an optional text column: `none` maps above every
`some` in the lexicographic `Bool ×ₗ String` order. -/
def optKey (o : Option String) : Bool ×ₗ String :=
  toLex (match o with | none => (true, "") | some s => (false, s))

/-- Sort key realizing the `list_residents` clause
`ORDER BY is_active DESC, building NULLS LAST, floor NULLS LAST,
unit NULLS LAST, full_name ASC`: descending on a boolean is ascending on its
negation, and `NULLS LAST` ascending text is `optKey`. -/
def sortKey (r : Resident) :
    Bool ×ₗ ((Bool ×ₗ String) ×ₗ ((Bool ×ₗ String) ×ₗ ((Bool ×ₗ String) ×ₗ String))) :=
  toLex (!r.is_active,
    toLex (optKey r.building,
      toLex (optKey r.floor,
        toLex (optKey r.unit, r.full_name))))

/-- Boolean comparator for the `ORDER BY` clause. -/
def sqlLE (a b : Resident) : Bool := decide (sortKey a ≤ sortKey b)

/-- `COALESCE(col, '')`. -/
def coalesce (o : Option String) : String := o.getD ""

/-- `hay ILIKE '%q%'`: case-insensitive containment.  (`%`/`_` wildcard
characters inside `q` itself are abstracted away; no claim constrains them.) -/
def ilikeContains (hay q : String) : Bool :=
  decide ((pyLower q).data <:+: (pyLower hay).data)

/-- `WHERE` clause of `list_residents`; a filter string participates only when
truthy (`if q:` etc.), `is_active` only when not `None`. -/
def matchesFilter (f : ListFilter) (r : Resident) : Bool :=
  (match f.q with
   | none => true
   | some q =>
     if q = "" then true
     else ilikeContains r.full_name q || ilikeContains r.unit q ||
          ilikeContains (coalesce r.email) q || ilikeContains (coalesce r.phone) q) &&
  (match f.building with
   | none => true
   | some b => if b = "" then true else r.building == some b) &&
  (match f.floor with
   | none => true
   | some v => if v = "" then true else r.floor == some v) &&
  (match f.unit with
   | none => true
   | some v => if v = "" then true else r.unit == v) &&
  (match f.is_active with
   | none => true
   | some a => r.is_active == a)

/-- `list_residents`: filtered count, then the filtered rows ordered by the
`ORDER BY` clause with `LIMIT :limit OFFSET :offset`. -/
def list_residents (db : List Resident) (f : ListFilter) (limit offset : Nat) :
    List Resident × Nat :=
  let filtered := db.filter (matchesFilter f)
  (((filtered.mergeSort sqlLE).drop offset).take limit, filtered.length)

/-! CSV export/import.  Rows are modelled at the cell level, as the dicts
`csv.DictReader` yields / `csv.DictWriter` consumes: the csv module's quoting
makes writing and re-parsing the identity on cell strings, and the UTF-8
decode step sits outside the model. -/

/-- A parsed CSV data row: the present columns with their cell strings. -/
abbrev Row := List (String × String)

/-- `row.get(key)`. -/
def rowGet (row : Row) (k : String) : Option String :=
  (row.find? (fun kv => kv.1 == k)).map (·.2)

/-- `csv` serialization of an optional text column: `None` becomes the empty
cell. -/
def optStr (o : Option String) : String := o.getD ""

/-- `csv` serialization of an optional timestamp. -/
def optNatStr (o : Option Nat) : String :=
  match o with
  | none => ""
  | some n => pyStr n

/-- `str(bool)` as written by `csv.DictWriter`. -/
def pyStrBool (b : Bool) : String := if b then "True" else "False"

def exportHeader : List String :=
  ["id", "full_name", "unit", "building", "floor", "phone", "email",
   "photo_url", "notes", "is_active", "created_at", "updated_at", "deactivated_at"]

/-- One exported CSV row (`writer.writerow(r)` under the fixed fieldnames). -/
def exportRow (r : Resident) : Row :=
  [("id", pyStr r.id), ("full_name", r.full_name), ("unit", r.unit),
   ("building", optStr r.building), ("floor", optStr r.floor),
   ("phone", optStr r.phone), ("email", optStr r.email),
   ("photo_url", optStr r.photo_url), ("notes", optStr r.notes),
   ("is_active", pyStrBool r.is_active), ("created_at", pyStr r.created_at),
   ("updated_at", pyStr r.updated_at), ("deactivated_at", optNatStr r.deactivated_at)]

/-- `export_csv` (`GET /residents/export.csv`): a max-page listing, one
`EXPORT_CSV` audit entry recording the filters, commit, and the serialized
rows. -/
def export_csv (now : Nat) (user : CurrentUser) (st : St) (f : ListFilter) :
    St × List Row :=
  let (items, _total) := list_residents st.residents f 100000 0
  let st' := write_audit_log now st (some user) "EXPORT_CSV" (some "resident")
    none none none (some (.exportFilters f))
  (st', items.map exportRow)

/-- `(row.get(col) or "").strip() or None`: blank or absent cells normalize
to SQL `NULL`. -/
def normCol (v : Option String) : Option String :=
  let s := pyStrip (v.getD "")
  if s = "" then none else some s

/-- The `is_active` cell parse of the importer: absent or blank leaves the key
unset; otherwise the truthy tokens map to `True`, everything else to `False`. -/
def isActiveCol (row : Row) : Option Bool :=
  match rowGet row "is_active" with
  | none => none
  | some raw =>
    if pyStrip raw = "" then none
    else some (decide (pyLower (pyStrip raw) ∈ (["1", "true", "yes", "y"] : List String)))

/-- The patch dict the importer builds for a validated row (source lines
340-352): `full_name`/`unit` stripped, the five optional columns always
present and blank-normalized, `is_active` conditionally present. -/
def buildPatch (full_name unit : String) (row : Row) : ResidentPatch :=
  { full_name := some full_name
    unit := some unit
    building := some (normCol (rowGet row "building"))
    floor := some (normCol (rowGet row "floor"))
    phone := some (normCol (rowGet row "phone"))
    email := some (normCol (rowGet row "email"))
    notes := some (normCol (rowGet row "notes"))
    is_active := isActiveCol row }

inductive RowOutcome where
  | createdOk
  | updatedOk
  | failed (msg : String)
deriving Repr, DecidableEq

/-- The body of the per-row `try` block of `import_csv`: validation, patch
building, then the id-directed update or the create, each with its audit
entry; every failure path carries the caught message.  (Python quotes the
offending literal inside the `int()` error message; the quoting is omitted
here, no claim depends on that message text.) -/
def processRow (now : Nat) (user : CurrentUser) (st : St) (idx : Nat) (row : Row) :
    St × RowOutcome :=
  let fullNameV := pyStrip ((rowGet row "full_name").getD "")
  let unitV := pyStrip ((rowGet row "unit").getD "")
  if fullNameV = "" ∨ unitV = "" then (st, .failed "full_name and unit are required")
  else
    let patch := buildPatch fullNameV unitV row
    let id_raw := pyStrip ((rowGet row "id").getD "")
    if id_raw = "" then
      let (after, db') := create_resident now st.nextId st.residents
        { full_name := fullNameV
          unit := unitV
          building := patch.building.getD none
          floor := patch.floor.getD none
          phone := patch.phone.getD none
          email := patch.email.getD none
          photo_url := none
          notes := patch.notes.getD none
          is_active := patch.is_active.getD true }
      let st' := write_audit_log now { st with residents := db', nextId := st.nextId + 1 }
        (some user) "IMPORT_CREATE_RESIDENT" (some "resident") (some (pyStr after.id))
        none (some after) (some (.importRow idx))
      (st', .createdOk)
    else
      match pyInt? id_raw with
      | none => (st, .failed ("invalid literal for int() with base 10: " ++ id_raw))
      | some rid =>
        match get_resident st.residents rid with
        | none => (st, .failed ("id=" ++ pyStr rid ++ " not found for update"))
        | some before =>
          let (after, db') := update_resident now st.residents rid patch
          let st' := write_audit_log now { st with residents := db' } (some user)
            "IMPORT_UPDATE_RESIDENT" (some "resident") (some (pyStr rid))
            (some before) after (some (.importRow idx))
          (st', .updatedOk)

/-- Result schema of the import endpoint. -/
@[ext]
structure CsvImportResult where
  created : Nat
  updated : Nat
  skipped : Nat
  errors : List String
deriving Repr, DecidableEq

/-- The `for idx, row in enumerate(reader, start=2)` loop: a failed row
increments `skipped`, appends `"Line <idx>: <msg>"`, and processing continues
with the next row. -/
def importLoop (now : Nat) (user : CurrentUser) :
    List Row → Nat → St → CsvImportResult → St × CsvImportResult
  | [], _, st, acc => (st, acc)
  | row :: rest, idx, st, acc =>
    match processRow now user st idx row with
    | (st', .createdOk) =>
      importLoop now user rest (idx + 1) st' { acc with created := acc.created + 1 }
    | (st', .updatedOk) =>
      importLoop now user rest (idx + 1) st' { acc with updated := acc.updated + 1 }
    | (st', .failed msg) =>
      importLoop now user rest (idx + 1) st'
        { acc with skipped := acc.skipped + 1
                   errors := acc.errors ++ ["Line " ++ pyStr idx ++ ": " ++ msg] }

/-- `import_csv` (`POST /residents/import.csv`): the row loop from line 2,
then one `IMPORT_CSV` summary audit entry, then commit. -/
def import_csv (now : Nat) (user : CurrentUser) (st : St) (rows : List Row) :
    St × CsvImportResult :=
  let (st', acc) := importLoop now user rows 2 st ⟨0, 0, 0, []⟩
  let st'' := write_audit_log now st' (some user) "IMPORT_CSV" (some "resident")
    none none none (some (.importSummary acc.created acc.updated acc.skipped))
  (st'', acc)

/-! ### Concrete fixtures for witnesses and counterexamples -/

def adminUser : CurrentUser := ⟨1, "admin@example.com", none, ["admin"]⟩

def emptySt : St := ⟨[], 1, []⟩

def sampleResident : Resident :=
  ⟨1, "Alice", "U1", some "B", some "2", some "555", some "a@example.com",
   some "/uploads/p.jpg", some "keep", true, 0, 0, none⟩

def inactiveResident : Resident :=
  ⟨2, "Bob", "U2", none, none, none, none, none, none, false, 0, 0, some 3⟩

/-- The invariant claimed by the spec for every resident:
`is_active == false ⇔ deactivated_at != null`. -/
def deactInvariant (r : Resident) : Prop := r.is_active = false ↔ r.deactivated_at ≠ none

/-- The three-row batch of the specification's CSV example: the second data
row has a blank `unit`. -/
def csvExampleRows : List Row :=
  [[("full_name", "A"), ("unit", "1")],
   [("full_name", "B"), ("unit", "")],
   [("full_name", "C"), ("unit", "3")]]

/-- The columns the CSV import's update statement never writes: identity,
photo and the two creation/modification timestamps agree. -/
def fieldFrame (x y : Resident) : Prop :=
  x.id = y.id ∧ x.photo_url = y.photo_url ∧
  x.created_at = y.created_at ∧ x.updated_at = y.updated_at

/-- A resident whose `full_name` is whitespace only (storable through the
create endpoint, whose schema does not trim or reject blank names). -/
def blankNameResident : Resident :=
  ⟨1, " ", "U", none, none, none, none, none, none, true, 0, 0, none⟩

/-- Strict "ascending, nulls last" order on an optional text column, as the
listing claim words it. -/
def nullsLastLT : Option String → Option String → Prop
  | some a, some b => a < b
  | some _, none => True
  | none, _ => False

/-- The claimed listing order: every active resident before any inactive one,
then building, floor, unit ascending (nulls last), then full_name ascending;
ties broken by the later keys. -/
def claimOrder (a b : Resident) : Prop :=
  (a.is_active = true ∧ b.is_active = false) ∨
  (a.is_active = b.is_active ∧
    (nullsLastLT a.building b.building ∨
      (a.building = b.building ∧
        (nullsLastLT a.floor b.floor ∨
          (a.floor = b.floor ∧
            (a.unit < b.unit ∨
              (a.unit = b.unit ∧ a.full_name ≤ b.full_name)))))))

/-! ### Helper lemmas about the Python string models -/

theorem natDecChars_ne_nil (n : Nat) : natDecChars n ≠ [] := by
  unfold natDecChars
  split
  · simp
  · simp

theorem digitChar_isDigit {d : Nat} (h : d < 10) : (Nat.digitChar d).isDigit = true := by
  interval_cases d <;> decide

theorem digitChar_not_ws {d : Nat} (h : d < 10) :
    (Nat.digitChar d).isWhitespace = false := by
  interval_cases d <;> decide

theorem digitChar_val {d : Nat} (h : d < 10) : (Nat.digitChar d).toNat - 48 = d := by
  interval_cases d <;> decide

theorem natDecChars_digits (n : Nat) : ∀ c ∈ natDecChars n, c.isDigit = true := by
  induction n using Nat.strong_induction_on with
  | _ n ih =>
    unfold natDecChars
    split
    · rename_i h
      intro c hc
      rw [List.mem_singleton] at hc
      subst hc
      exact digitChar_isDigit h
    · rename_i h
      intro c hc
      rcases List.mem_append.mp hc with h1 | h2
      · exact ih (n / 10) (Nat.div_lt_self (by omega) (by omega)) c h1
      · rw [List.mem_singleton] at h2
        subst h2
        exact digitChar_isDigit (Nat.mod_lt _ (by omega))

theorem isDigit_not_ws {c : Char} (h : c.isDigit = true) : c.isWhitespace = false := by
  simp only [Char.isDigit, Bool.and_eq_true, decide_eq_true_eq] at h
  simp only [Char.isWhitespace, Bool.or_eq_false_iff, decide_eq_false_iff_not]
  obtain ⟨h1, _h2⟩ := h
  refine ⟨⟨⟨?_, ?_⟩, ?_⟩, ?_⟩ <;> rintro rfl <;> simp_all

theorem dropWhile_eq_self_of_forall {α : Type} (p : α → Bool) (l : List α)
    (h : ∀ c ∈ l, p c = false) : l.dropWhile p = l := by
  cases l with
  | nil => rfl
  | cons a t => rw [List.dropWhile_cons]; simp [h a (by simp)]

theorem pyStripChars_eq_self {l : List Char}
    (h : ∀ c ∈ l, c.isWhitespace = false) : pyStripChars l = l := by
  unfold pyStripChars
  rw [dropWhile_eq_self_of_forall _ _ h,
      dropWhile_eq_self_of_forall _ _ (fun c hc => h c (List.mem_reverse.mp hc)),
      List.reverse_reverse]

theorem pyStrip_pyStr (n : Nat) : pyStrip (pyStr n) = pyStr n := by
  show String.mk (pyStripChars (natDecChars n)) = String.mk (natDecChars n)
  rw [pyStripChars_eq_self (fun c hc => isDigit_not_ws (natDecChars_digits n c hc))]

theorem pyStr_ne_empty (n : Nat) : pyStr n ≠ "" := by
  intro h
  exact natDecChars_ne_nil n (congrArg String.data h)

theorem decDigitsVal_append_singleton (l : List Char) (c : Char) :
    decDigitsVal (l ++ [c]) = decDigitsVal l * 10 + (c.toNat - 48) := by
  unfold decDigitsVal
  rw [List.foldl_append]
  rfl

theorem decDigitsVal_natDecChars (n : Nat) : decDigitsVal (natDecChars n) = n := by
  induction n using Nat.strong_induction_on with
  | _ n ih =>
    unfold natDecChars
    split
    · rename_i h
      show decDigitsVal [Nat.digitChar n] = n
      unfold decDigitsVal
      simp [digitChar_val h]
    · rename_i h
      push_neg at h
      rw [decDigitsVal_append_singleton,
          ih (n / 10) (Nat.div_lt_self (by omega) (by omega)),
          digitChar_val (Nat.mod_lt _ (by omega))]
      omega

theorem pyInt?_pyStr (n : Nat) : pyInt? (pyStr n) = some n := by
  unfold pyInt? pyStr
  rw [if_pos ⟨natDecChars_ne_nil n,
        List.all_eq_true.mpr (fun c hc => natDecChars_digits n c hc)⟩]
  exact congrArg some (decDigitsVal_natDecChars n)

/-! ### Helper lemmas about `get_resident` -/

theorem get_resident_map_of_id_eq (db : List Resident) (f : Resident → Resident)
    (h : ∀ x, (f x).id = x.id) (i : Nat) :
    get_resident (db.map f) i = (get_resident db i).map f := by
  unfold get_resident
  rw [List.find?_map]
  have : ((fun r => r.id == i) ∘ f) = (fun r : Resident => r.id == i) := by
    funext x
    simp [Function.comp, h]
  rw [this]

theorem get_resident_of_nodup {db : List Resident}
    (h : (db.map Resident.id).Nodup) {r : Resident} (hm : r ∈ db) :
    get_resident db r.id = some r := by
  induction db with
  | nil => cases hm
  | cons a t ihd =>
    rw [List.map_cons, List.nodup_cons] at h
    rcases List.mem_cons.mp hm with rfl | hm'
    · unfold get_resident
      simp [List.find?]
    · unfold get_resident
      have hne : (a.id == r.id) = false := by
        have : r.id ∈ t.map Resident.id := List.mem_map_of_mem _ hm'
        simp only [beq_eq_false_iff_ne, ne_eq]
        intro he
        exact h.1 (he ▸ this)
      rw [List.find?_cons, hne]
      exact ihd h.2 hm'

theorem applyPatch_id (now : Nat) (p : ResidentPatch) (x : Resident) :
    (applyPatch now p x).id = x.id := rfl

theorem get_resident_id_eq {db : List Resident} {rid : Nat} {r : Resident}
    (h : get_resident db rid = some r) : r.id = rid := by
  have := List.find?_some h
  simpa using this

theorem get_after_update {now : Nat} {db : List Resident} {rid : Nat}
    {p : ResidentPatch} {r' : Resident} {db' : List Resident}
    (h : update_resident now db rid p = (some r', db')) :
    get_resident db' rid = some r' := by
  unfold update_resident at h
  by_cases hE : p.isEmpty = true
  · rw [if_pos hE] at h
    obtain ⟨h1, h2⟩ := Prod.mk.injEq .. ▸ h
    rw [← h2, h1]
  · rw [if_neg hE] at h
    match hg : get_resident db rid with
    | none => rw [hg] at h; exact absurd (congrArg Prod.fst h) (by simp)
    | some r =>
      rw [hg] at h
      obtain ⟨h1, h2⟩ := Prod.mk.injEq .. ▸ h
      have hidf : ∀ x : Resident,
          ((fun x => if x.id = rid then applyPatch now p x else x) x).id = x.id := by
        intro x
        dsimp only
        by_cases hx : x.id = rid
        · rw [if_pos hx]; exact applyPatch_id ..
        · rw [if_neg hx]
      rw [← h2, get_resident_map_of_id_eq db _ hidf rid, hg]
      have hr : r.id = rid := get_resident_id_eq hg
      show some (if r.id = rid then applyPatch now p r else r) = some r'
      rw [if_pos hr]
      exact h1

theorem get_after_set_photo {db : List Resident} {rid : Nat} {url : String}
    {r' : Resident} {db' : List Resident}
    (h : set_resident_photo_url db rid url = (some r', db')) :
    get_resident db' rid = some r' := by
  unfold set_resident_photo_url at h
  match hg : get_resident db rid with
  | none => rw [hg] at h; exact absurd (congrArg Prod.fst h) (by simp)
  | some r =>
    rw [hg] at h
    obtain ⟨h1, h2⟩ := Prod.mk.injEq .. ▸ h
    have hidf : ∀ x : Resident,
        ((fun x => if x.id = rid then { x with photo_url := some url } else x) x).id = x.id := by
      intro x
      dsimp only
      by_cases hx : x.id = rid
      · rw [if_pos hx]
      · rw [if_neg hx]
    rw [← h2, get_resident_map_of_id_eq db _ hidf rid, hg]
    have hr : r.id = rid := get_resident_id_eq hg
    show some (if r.id = rid then { r with photo_url := some url } else r) = some r'
    rw [if_pos hr]
    exact h1

theorem get_resident_append_fresh {db : List Resident} {r : Resident}
    (h : ∀ x ∈ db, x.id ≠ r.id) : get_resident (db ++ [r]) r.id = some r := by
  unfold get_resident
  rw [List.find?_append]
  have h1 : List.find? (fun x => x.id == r.id) db = none := by
    rw [List.find?_eq_none]
    intro x hx
    simpa using h x hx
  rw [h1]
  simp [List.find?]

/-! ### Claims -/

/-- C10: for every resident id, `update_resident` with an empty patch performs
no write and returns the currently stored row, acting as an identity on the
database. -/
theorem update_empty_patch_identity (now : Nat) (db : List Resident) (rid : Nat)
    (p : ResidentPatch) (h : p.isEmpty = true) :
    update_resident now db rid p = (get_resident db rid, db) := by
  unfold update_resident
  rw [if_pos h]

theorem update_empty_patch_identity_witness :
    update_resident 5 [sampleResident] 1 {} = (some sampleResident, [sampleResident]) := by
  rw [update_empty_patch_identity 5 [sampleResident] 1 {} (by decide)]
  decide

/-- C9: whenever a patch on an existing resident carries `is_active = false`,
the stored row's `deactivated_at` is overwritten with the current time,
regardless of the resident's prior state. -/
theorem patch_inactive_overwrites_deactivated_at (now : Nat) (db : List Resident)
    (rid : Nat) (p : ResidentPatch) (r : Resident)
    (hp : p.is_active = some false) (hr : get_resident db rid = some r) :
    (update_resident now db rid p).1 = some (applyPatch now p r) ∧
    (applyPatch now p r).deactivated_at = some now := by
  have hne : p.isEmpty = false := by
    unfold ResidentPatch.isEmpty
    rw [hp]
    simp
  constructor
  · unfold update_resident
    rw [if_neg (by simp [hne]), hr]
  · unfold applyPatch
    rw [hp]

theorem patch_inactive_overwrites_deactivated_at_witness :
    (update_resident 7 [inactiveResident] 2
        ({ is_active := some false } : ResidentPatch)).1 =
      some (applyPatch 7 ({ is_active := some false } : ResidentPatch) inactiveResident) ∧
    (applyPatch 7 ({ is_active := some false } : ResidentPatch)
        inactiveResident).deactivated_at = some 7 :=
  patch_inactive_overwrites_deactivated_at 7 [inactiveResident] 2 _ inactiveResident
    rfl (by decide)

/-- C6: a patch on an existing resident modifies only the supplied fields:
the identity, photo and timestamp columns are untouched, every patchable
column absent from the patch keeps its prior value, and when `is_active` is
absent the derived `deactivated_at` is untouched as well. -/
theorem patch_modifies_only_supplied_fields (now : Nat) (db : List Resident)
    (rid : Nat) (p : ResidentPatch) (r r' : Resident) (db' : List Resident)
    (hr : get_resident db rid = some r)
    (hu : update_resident now db rid p = (some r', db')) :
    r'.id = r.id ∧ r'.photo_url = r.photo_url ∧ r'.created_at = r.created_at ∧
    r'.updated_at = r.updated_at ∧
    (p.full_name = none → r'.full_name = r.full_name) ∧
    (p.unit = none → r'.unit = r.unit) ∧
    (p.building = none → r'.building = r.building) ∧
    (p.floor = none → r'.floor = r.floor) ∧
    (p.phone = none → r'.phone = r.phone) ∧
    (p.email = none → r'.email = r.email) ∧
    (p.notes = none → r'.notes = r.notes) ∧
    (p.is_active = none → r'.is_active = r.is_active ∧
      r'.deactivated_at = r.deactivated_at) := by
  unfold update_resident at hu
  by_cases hE : p.isEmpty = true
  · rw [if_pos hE, hr] at hu
    have : r' = r := by
      have := congrArg Prod.fst hu
      simpa using this.symm
    subst this
    simp
  · rw [if_neg hE, hr] at hu
    have hr' : r' = applyPatch now p r := by
      have := congrArg Prod.fst hu
      simp at this
      exact this.symm
    subst hr'
    unfold applyPatch
    refine ⟨rfl, rfl, rfl, rfl, ?_, ?_, ?_, ?_, ?_, ?_, ?_, ?_⟩ <;>
      intro h <;> simp [h]

theorem patch_modifies_only_supplied_fields_witness :
    (applyPatch 5 ({ notes := some (some "x") } : ResidentPatch) sampleResident).id =
      sampleResident.id ∧
    (applyPatch 5 ({ notes := some (some "x") } : ResidentPatch)
        sampleResident).photo_url = sampleResident.photo_url ∧
    (applyPatch 5 ({ notes := some (some "x") } : ResidentPatch)
        sampleResident).created_at = sampleResident.created_at ∧
    (applyPatch 5 ({ notes := some (some "x") } : ResidentPatch)
        sampleResident).updated_at = sampleResident.updated_at ∧
    (({ notes := some (some "x") } : ResidentPatch).full_name = none →
      (applyPatch 5 ({ notes := some (some "x") } : ResidentPatch)
        sampleResident).full_name = sampleResident.full_name) ∧
    (({ notes := some (some "x") } : ResidentPatch).unit = none →
      (applyPatch 5 ({ notes := some (some "x") } : ResidentPatch)
        sampleResident).unit = sampleResident.unit) ∧
    (({ notes := some (some "x") } : ResidentPatch).building = none →
      (applyPatch 5 ({ notes := some (some "x") } : ResidentPatch)
        sampleResident).building = sampleResident.building) ∧
    (({ notes := some (some "x") } : ResidentPatch).floor = none →
      (applyPatch 5 ({ notes := some (some "x") } : ResidentPatch)
        sampleResident).floor = sampleResident.floor) ∧
    (({ notes := some (some "x") } : ResidentPatch).phone = none →
      (applyPatch 5 ({ notes := some (some "x") } : ResidentPatch)
        sampleResident).phone = sampleResident.phone) ∧
    (({ notes := some (some "x") } : ResidentPatch).email = none →
      (applyPatch 5 ({ notes := some (some "x") } : ResidentPatch)
        sampleResident).email = sampleResident.email) ∧
    (({ notes := some (some "x") } : ResidentPatch).notes = none →
      (applyPatch 5 ({ notes := some (some "x") } : ResidentPatch)
        sampleResident).notes = sampleResident.notes) ∧
    (({ notes := some (some "x") } : ResidentPatch).is_active = none →
      (applyPatch 5 ({ notes := some (some "x") } : ResidentPatch)
          sampleResident).is_active = sampleResident.is_active ∧
      (applyPatch 5 ({ notes := some (some "x") } : ResidentPatch)
          sampleResident).deactivated_at = sampleResident.deactivated_at) :=
  patch_modifies_only_supplied_fields 5 [sampleResident] 1 _ sampleResident
    (applyPatch 5 ({ notes := some (some "x") } : ResidentPatch) sampleResident)
    [applyPatch 5 ({ notes := some (some "x") } : ResidentPatch) sampleResident]
    (by decide) (by decide)

/-- C2 (counterexample): creating a resident with `is_active = false` yields a
row that is inactive yet has `deactivated_at = null` — the `INSERT` of
`create_resident` never touches `deactivated_at`, so the claimed iff fails
right after this mutating operation. -/
theorem create_inactive_breaks_deact_invariant :
    (residents_create 5 adminUser emptySt
        { full_name := "A", unit := "U", is_active := false }).2.is_active = false ∧
    (residents_create 5 adminUser emptySt
        { full_name := "A", unit := "U", is_active := false }).2.deactivated_at = none ∧
    ¬ deactInvariant (residents_create 5 adminUser emptySt
        { full_name := "A", unit := "U", is_active := false }).2 := by
  refine ⟨rfl, rfl, ?_⟩
  intro h
  exact (h.mp rfl) rfl

/-- C2 (amended): a patch carrying `is_active` establishes the invariant on
the updated row outright (`false` sets `deactivated_at` to the current time,
`true` clears it); a patch without `is_active` and a photo-url set preserve
the invariant; a create with `is_active = true` satisfies it.  (A create with
`is_active = false` violates it, see the counterexample.) -/
theorem deact_invariant_after_mutations :
    (∀ now db rid p r', p.is_active ≠ none →
        (update_resident now db rid p).1 = some r' → deactInvariant r') ∧
    (∀ now db rid p r', p.is_active = none → (∀ r ∈ db, deactInvariant r) →
        (update_resident now db rid p).1 = some r' → deactInvariant r') ∧
    (∀ now db rid p r', p.is_active = some false →
        (update_resident now db rid p).1 = some r' → r'.deactivated_at = some now) ∧
    (∀ now db rid p r', p.is_active = some true →
        (update_resident now db rid p).1 = some r' → r'.deactivated_at = none) ∧
    (∀ db rid url r', (∀ r ∈ db, deactInvariant r) →
        (set_resident_photo_url db rid url).1 = some r' → deactInvariant r') ∧
    (∀ now nid db d, d.is_active = true →
        deactInvariant (create_resident now nid db d).1) := by
  have happly : ∀ now p (r : Resident), p.is_active ≠ none →
      deactInvariant (applyPatch now p r) := by
    intro now p r hp
    unfold deactInvariant applyPatch
    match hx : p.is_active with
    | none => exact absurd hx hp
    | some true => simp [hx]
    | some false => simp [hx]
  have hupdE : ∀ now db rid (p : ResidentPatch) r', p.is_active ≠ none →
      (update_resident now db rid p).1 = some r' → r' = applyPatch now p
        ((get_resident db rid).getD r') := by
    intro now db rid p r' hp hu
    have hne : p.isEmpty = false := by
      unfold ResidentPatch.isEmpty
      match hx : p.is_active with
      | none => exact absurd hx hp
      | some b => simp [hx]
    unfold update_resident at hu
    rw [if_neg (by simp [hne])] at hu
    match hg : get_resident db rid with
    | none => rw [hg] at hu; exact absurd hu (by simp)
    | some r => rw [hg] at hu; simp at hu; simp [hg, ← hu]
  refine ⟨?_, ?_, ?_, ?_, ?_, ?_⟩
  · intro now db rid p r' hp hu
    rw [hupdE now db rid p r' hp hu]
    exact happly _ _ _ hp
  · intro now db rid p r' hp hall hu
    unfold update_resident at hu
    by_cases hE : p.isEmpty = true
    · rw [if_pos hE] at hu
      exact hall r' (List.mem_of_find?_eq_some hu)
    · rw [if_neg hE] at hu
      match hg : get_resident db rid with
      | none => rw [hg] at hu; exact absurd hu (by simp)
      | some r =>
        rw [hg] at hu
        simp at hu
        have hr : r ∈ db := List.mem_of_find?_eq_some hg
        rw [← hu]
        unfold deactInvariant applyPatch
        rw [hp]
        simpa [deactInvariant] using hall r hr
  · intro now db rid p r' hp hu
    rw [hupdE now db rid p r' (by rw [hp]; simp) hu]
    unfold applyPatch
    rw [hp]
  · intro now db rid p r' hp hu
    rw [hupdE now db rid p r' (by rw [hp]; simp) hu]
    unfold applyPatch
    rw [hp]
  · intro db rid url r' hall hu
    unfold set_resident_photo_url at hu
    match hg : get_resident db rid with
    | none => rw [hg] at hu; exact absurd hu (by simp)
    | some r =>
      rw [hg] at hu
      simp at hu
      rw [← hu]
      simpa [deactInvariant] using hall r (List.mem_of_find?_eq_some hg)
  · intro now nid db d hd
    unfold deactInvariant create_resident
    simp [hd]

theorem deact_invariant_after_mutations_witness :
    ((({ is_active := some false } : ResidentPatch).is_active ≠ none) ∧
      (update_resident 7 [sampleResident] 1
          ({ is_active := some false } : ResidentPatch)).1 =
        some (applyPatch 7 ({ is_active := some false } : ResidentPatch) sampleResident)) ∧
    deactInvariant (applyPatch 7 ({ is_active := some false } : ResidentPatch)
      sampleResident) :=
  ⟨⟨by decide, by decide⟩,
   deact_invariant_after_mutations.1 7 [sampleResident] 1
     ({ is_active := some false } : ResidentPatch)
     (applyPatch 7 ({ is_active := some false } : ResidentPatch) sampleResident)
     (by decide) (by decide)⟩

/-- C4 (counterexample): an update row whose CSV lacks the `notes` column
still produces a patch with a `notes` key (set to null), and importing it
nulls the resident's previously stored notes — the columns absent from the
CSV are not left unset. -/
theorem import_absent_column_not_unset :
    (buildPatch "Alice" "U1" [("id", "1"), ("full_name", "Alice"), ("unit", "U1")]).notes =
      some none ∧
    sampleResident.notes = some "keep" ∧
    ((import_csv 0 adminUser ⟨[sampleResident], 2, []⟩
        [[("id", "1"), ("full_name", "Alice"), ("unit", "U1")]]).1.residents.map
      Resident.notes) = [none] := by
  refine ⟨rfl, rfl, ?_⟩
  decide

/-- C4 (amended): the importer's field patch always carries `full_name`,
`unit` and all five optional columns — a blank or absent cell for
`building`/`floor`/`phone`/`email`/`notes` becomes an explicit null (so an
update row nulls out fields whose columns are missing from the file); only
`is_active` is left unset, exactly when its column is absent or blank. -/
theorem import_patch_construction (fn u : String) (row : Row) :
    (buildPatch fn u row).full_name = some fn ∧
    (buildPatch fn u row).unit = some u ∧
    (buildPatch fn u row).building = some (normCol (rowGet row "building")) ∧
    (buildPatch fn u row).floor = some (normCol (rowGet row "floor")) ∧
    (buildPatch fn u row).phone = some (normCol (rowGet row "phone")) ∧
    (buildPatch fn u row).email = some (normCol (rowGet row "email")) ∧
    (buildPatch fn u row).notes = some (normCol (rowGet row "notes")) ∧
    (rowGet row "notes" = none → (buildPatch fn u row).notes = some none) ∧
    ((buildPatch fn u row).is_active = none ↔
      rowGet row "is_active" = none ∨
        ∃ v, rowGet row "is_active" = some v ∧ pyStrip v = "") := by
  refine ⟨rfl, rfl, rfl, rfl, rfl, rfl, rfl, ?_, ?_⟩
  · intro h
    show some (normCol (rowGet row "notes")) = some none
    rw [h]
    rfl
  · show isActiveCol row = none ↔ _
    unfold isActiveCol
    match hx : rowGet row "is_active" with
    | none => simp
    | some raw =>
      by_cases hb : pyStrip raw = ""
      · simp [hb]
      · simp [hb]

theorem import_patch_construction_witness :
    (buildPatch "A" "U" [("building", " B1 "), ("is_active", " ")]).full_name = some "A" ∧
    (buildPatch "A" "U" [("building", " B1 "), ("is_active", " ")]).unit = some "U" ∧
    (buildPatch "A" "U" [("building", " B1 "), ("is_active", " ")]).building =
      some (normCol (rowGet [("building", " B1 "), ("is_active", " ")] "building")) ∧
    (buildPatch "A" "U" [("building", " B1 "), ("is_active", " ")]).floor =
      some (normCol (rowGet [("building", " B1 "), ("is_active", " ")] "floor")) ∧
    (buildPatch "A" "U" [("building", " B1 "), ("is_active", " ")]).phone =
      some (normCol (rowGet [("building", " B1 "), ("is_active", " ")] "phone")) ∧
    (buildPatch "A" "U" [("building", " B1 "), ("is_active", " ")]).email =
      some (normCol (rowGet [("building", " B1 "), ("is_active", " ")] "email")) ∧
    (buildPatch "A" "U" [("building", " B1 "), ("is_active", " ")]).notes =
      some (normCol (rowGet [("building", " B1 "), ("is_active", " ")] "notes")) ∧
    (rowGet [("building", " B1 "), ("is_active", " ")] "notes" = none →
      (buildPatch "A" "U" [("building", " B1 "), ("is_active", " ")]).notes = some none) ∧
    ((buildPatch "A" "U" [("building", " B1 "), ("is_active", " ")]).is_active = none ↔
      rowGet [("building", " B1 "), ("is_active", " ")] "is_active" = none ∨
        ∃ v, rowGet [("building", " B1 "), ("is_active", " ")] "is_active" = some v ∧
          pyStrip v = "") :=
  import_patch_construction "A" "U" [("building", " B1 "), ("is_active", " ")]

/-- C7: when the targeted resident id does not exist, update, deactivate and
photo upload fail with 404 and return the unchanged (rolled-back) state, so no
mutation and no audit write persist; a CSV update row referencing a missing id
fails at row level with the not-found message and leaves the state untouched
(in particular no audit entry is written for it). -/
theorem not_found_no_mutation_no_audit (now : Nat) (user : CurrentUser)
    (st : St) (rid : Nat) (h : get_resident st.residents rid = none) :
    (∀ p, residents_update now user st rid p = (st, .error notFoundErr)) ∧
    residents_deactivate now user st rid = (st, .error notFoundErr) ∧
    (∀ baseUrl ext len,
      upload_photo now user baseUrl st rid ext len = (st, .error notFoundErr)) ∧
    (∀ idx row,
      pyStrip ((rowGet row "full_name").getD "") ≠ "" →
      pyStrip ((rowGet row "unit").getD "") ≠ "" →
      pyInt? (pyStrip ((rowGet row "id").getD "")) = some rid →
      processRow now user st idx row =
        (st, .failed ("id=" ++ pyStr rid ++ " not found for update"))) := by
  refine ⟨?_, ?_, ?_, ?_⟩
  · intro p
    unfold residents_update
    rw [h]
  · unfold residents_deactivate
    rw [h]
  · intro baseUrl ext len
    unfold upload_photo
    rw [h]
  · intro idx row hfn hu hid
    have hraw : pyStrip ((rowGet row "id").getD "") ≠ "" := by
      intro he
      rw [he] at hid
      rw [show pyInt? "" = none from rfl] at hid
      cases hid
    unfold processRow
    rw [if_neg (by exact not_or.mpr ⟨hfn, hu⟩), if_neg hraw]
    simp only [hid, h]

theorem not_found_no_mutation_no_audit_witness :
    (residents_update 3 adminUser emptySt 1 {} = (emptySt, .error notFoundErr)) ∧
    (residents_deactivate 3 adminUser emptySt 1 = (emptySt, .error notFoundErr)) ∧
    (upload_photo 3 adminUser none emptySt 1 ".jpg" 0 = (emptySt, .error notFoundErr)) ∧
    (processRow 3 adminUser emptySt 2 [("id", "1"), ("full_name", "A"), ("unit", "U")] =
      (emptySt, .failed ("id=" ++ pyStr 1 ++ " not found for update"))) := by
  have h := not_found_no_mutation_no_audit 3 adminUser emptySt 1 (by decide)
  exact ⟨h.1 {}, h.2.1, h.2.2.1 none ".jpg" 0,
    h.2.2.2 2 [("id", "1"), ("full_name", "A"), ("unit", "U")]
      (by decide) (by decide) (by decide)⟩

/-- C1: every successful single-entity mutating operation (create, update,
deactivate, photo upload) appends exactly one audit entry to the audit table
within the same committed transaction, with `before` the pre-mutation
snapshot (null for creates) and `after` the post-mutation row as stored in
the residents table; when the operation aborts with an error, the returned
state is the unchanged pre-state, so neither the mutation nor the audit
entry persists. -/
theorem single_mutation_audits_once (now : Nat) (user : CurrentUser) (st : St) :
    (∀ payload st' r, residents_create now user st payload = (st', r) →
      (∃ e, st'.audit = st.audit ++ [e] ∧ e.action = "CREATE_RESIDENT" ∧
        e.before = none ∧ e.after = some r) ∧
      ((∀ x ∈ st.residents, x.id ≠ st.nextId) →
        get_resident st'.residents r.id = some r)) ∧
    (∀ rid p st' r, residents_update now user st rid p = (st', .ok r) →
      ∃ e, st'.audit = st.audit ++ [e] ∧ e.action = "UPDATE_RESIDENT" ∧
        e.before = get_resident st.residents rid ∧ e.after = some r ∧
        get_resident st'.residents rid = some r) ∧
    (∀ rid p st' err, residents_update now user st rid p = (st', .error err) → st' = st) ∧
    (∀ rid st' r, residents_deactivate now user st rid = (st', .ok r) →
      ∃ e, st'.audit = st.audit ++ [e] ∧ e.action = "DEACTIVATE_RESIDENT" ∧
        e.before = get_resident st.residents rid ∧ e.after = some r ∧
        get_resident st'.residents rid = some r) ∧
    (∀ rid st' err, residents_deactivate now user st rid = (st', .error err) → st' = st) ∧
    (∀ baseUrl rid ext len st' r,
      upload_photo now user baseUrl st rid ext len = (st', .ok r) →
      ∃ e, st'.audit = st.audit ++ [e] ∧ e.action = "UPLOAD_RESIDENT_PHOTO" ∧
        e.before = get_resident st.residents rid ∧ e.after = some r ∧
        get_resident st'.residents rid = some r) ∧
    (∀ baseUrl rid ext len st' err,
      upload_photo now user baseUrl st rid ext len = (st', .error err) → st' = st) := by
  refine ⟨?_, ?_, ?_, ?_, ?_, ?_, ?_⟩
  · intro payload st' r h
    simp only [residents_create, create_resident] at h
    obtain ⟨h1, h2⟩ := Prod.mk.injEq .. ▸ h
    subst h1
    subst h2
    constructor
    · exact ⟨_, rfl, rfl, rfl, rfl⟩
    · intro hfresh
      exact get_resident_append_fresh (by intro x hx; exact hfresh x hx)
  · intro rid p st' r h
    unfold residents_update at h
    match hg : get_resident st.residents rid with
    | none =>
      rw [hg] at h
      exact absurd (congrArg Prod.snd h) (by simp)
    | some before =>
      rw [hg] at h
      match hu : update_resident now st.residents rid p with
      | (none, db2) =>
        rw [hu] at h
        exact absurd (congrArg Prod.snd h) (by simp)
      | (some updated, db2) =>
        rw [hu] at h
        obtain ⟨h1, h2⟩ := Prod.mk.injEq .. ▸ h
        have hr : updated = r := by simpa using h2
        subst hr
        subst h1
        exact ⟨_, rfl, rfl, rfl, rfl, get_after_update hu⟩
  · intro rid p st' err h
    unfold residents_update at h
    match hg : get_resident st.residents rid with
    | none =>
      rw [hg] at h
      exact (congrArg Prod.fst h).symm
    | some before =>
      rw [hg] at h
      match hu : update_resident now st.residents rid p with
      | (none, db2) =>
        rw [hu] at h
        exact (congrArg Prod.fst h).symm
      | (some updated, db2) =>
        rw [hu] at h
        exact absurd (congrArg Prod.snd h) (by simp)
  · intro rid st' r h
    unfold residents_deactivate at h
    match hg : get_resident st.residents rid with
    | none =>
      rw [hg] at h
      exact absurd (congrArg Prod.snd h) (by simp)
    | some before =>
      rw [hg] at h
      have hu : update_resident now st.residents rid { is_active := some false } =
          (some (applyPatch now { is_active := some false } before),
           st.residents.map (fun x =>
             if x.id = rid then applyPatch now { is_active := some false } x else x)) := by
        unfold update_resident
        rw [if_neg (by decide), hg]
      rw [hu] at h
      obtain ⟨h1, h2⟩ := Prod.mk.injEq .. ▸ h
      have hr : applyPatch now { is_active := some false } before = r := by simpa using h2
      subst hr
      subst h1
      exact ⟨_, rfl, rfl, rfl, rfl, get_after_update hu⟩
  · intro rid st' err h
    unfold residents_deactivate at h
    match hg : get_resident st.residents rid with
    | none =>
      rw [hg] at h
      exact (congrArg Prod.fst h).symm
    | some before =>
      rw [hg] at h
      have hu : update_resident now st.residents rid { is_active := some false } =
          (some (applyPatch now { is_active := some false } before),
           st.residents.map (fun x =>
             if x.id = rid then applyPatch now { is_active := some false } x else x)) := by
        unfold update_resident
        rw [if_neg (by decide), hg]
      rw [hu] at h
      exact absurd (congrArg Prod.snd h) (by simp)
  · intro baseUrl rid ext len st' r h
    unfold upload_photo at h
    match hg : get_resident st.residents rid with
    | none =>
      rw [hg] at h
      exact absurd (congrArg Prod.snd h) (by simp)
    | some before =>
      simp only [hg] at h
      by_cases hext : ext ∈ allowedPhotoExts
      · rw [if_pos hext] at h
        by_cases hlen : len > 5 * 1024 * 1024
        · rw [if_pos hlen] at h
          exact absurd (congrArg Prod.snd h) (by simp)
        · rw [if_neg hlen] at h
          have hs : set_resident_photo_url st.residents rid
              (publicPhotoUrl baseUrl
                ("resident_" ++ pyStr rid ++ (if ext = "" then ".jpg" else ext))) =
              (some { before with photo_url := some (publicPhotoUrl baseUrl
                  ("resident_" ++ pyStr rid ++ (if ext = "" then ".jpg" else ext))) },
               st.residents.map (fun x =>
                 if x.id = rid then { x with photo_url := some (publicPhotoUrl baseUrl
                   ("resident_" ++ pyStr rid ++ (if ext = "" then ".jpg" else ext))) }
                 else x)) := by
            unfold set_resident_photo_url
            rw [hg]
          rw [hs] at h
          obtain ⟨h1, h2⟩ := Prod.mk.injEq .. ▸ h
          have hr : { before with photo_url := some (publicPhotoUrl baseUrl
              ("resident_" ++ pyStr rid ++ (if ext = "" then ".jpg" else ext))) } = r := by
            simpa using h2
          subst hr
          subst h1
          exact ⟨_, rfl, rfl, rfl, rfl, get_after_set_photo hs⟩
      · rw [if_neg hext] at h
        exact absurd (congrArg Prod.snd h) (by simp)
  · intro baseUrl rid ext len st' err h
    unfold upload_photo at h
    match hg : get_resident st.residents rid with
    | none =>
      rw [hg] at h
      exact (congrArg Prod.fst h).symm
    | some before =>
      simp only [hg] at h
      by_cases hext : ext ∈ allowedPhotoExts
      · rw [if_pos hext] at h
        by_cases hlen : len > 5 * 1024 * 1024
        · rw [if_pos hlen] at h
          exact (congrArg Prod.fst h).symm
        · rw [if_neg hlen] at h
          have hs : set_resident_photo_url st.residents rid
              (publicPhotoUrl baseUrl
                ("resident_" ++ pyStr rid ++ (if ext = "" then ".jpg" else ext))) =
              (some { before with photo_url := some (publicPhotoUrl baseUrl
                  ("resident_" ++ pyStr rid ++ (if ext = "" then ".jpg" else ext))) },
               st.residents.map (fun x =>
                 if x.id = rid then { x with photo_url := some (publicPhotoUrl baseUrl
                   ("resident_" ++ pyStr rid ++ (if ext = "" then ".jpg" else ext))) }
                 else x)) := by
            unfold set_resident_photo_url
            rw [hg]
          rw [hs] at h
          exact absurd (congrArg Prod.snd h) (by simp)
      · rw [if_neg hext] at h
        exact (congrArg Prod.fst h).symm

theorem single_mutation_audits_once_witness :
    ((∃ e, (residents_create 4 adminUser emptySt
          { full_name := "A", unit := "U" }).1.audit = emptySt.audit ++ [e] ∧
        e.action = "CREATE_RESIDENT" ∧ e.before = none ∧
        e.after = some (residents_create 4 adminUser emptySt
          { full_name := "A", unit := "U" }).2) ∧
      get_resident (residents_create 4 adminUser emptySt
            { full_name := "A", unit := "U" }).1.residents
          (residents_create 4 adminUser emptySt { full_name := "A", unit := "U" }).2.id =
        some (residents_create 4 adminUser emptySt { full_name := "A", unit := "U" }).2) ∧
    residents_update 4 adminUser emptySt 9 {} = (emptySt, .error notFoundErr) := by
  have h := (single_mutation_audits_once 4 adminUser emptySt).1
    { full_name := "A", unit := "U" }
    (residents_create 4 adminUser emptySt { full_name := "A", unit := "U" }).1
    (residents_create 4 adminUser emptySt { full_name := "A", unit := "U" }).2 rfl
  exact ⟨⟨h.1, h.2 (by decide)⟩, rfl⟩

theorem importLoop_acc (now : Nat) (user : CurrentUser) :
    ∀ (rows : List Row) (idx : Nat) (st : St) (acc : CsvImportResult),
    ∃ dc du ds errs,
      (importLoop now user rows idx st acc).2 =
        { created := acc.created + dc, updated := acc.updated + du,
          skipped := acc.skipped + ds, errors := acc.errors ++ errs } ∧
      dc + du + ds = rows.length ∧
      errs.length = ds ∧
      ∀ e ∈ errs, ∃ n msg, idx ≤ n ∧ n < idx + rows.length ∧
        e = "Line " ++ pyStr n ++ ": " ++ msg := by
  intro rows
  induction rows with
  | nil =>
    intro idx st acc
    exact ⟨0, 0, 0, [], by simp [importLoop], by simp, rfl, by simp⟩
  | cons row rest ih =>
    intro idx st acc
    unfold importLoop
    match hp : processRow now user st idx row with
    | (st2, .createdOk) =>
      obtain ⟨dc, du, ds, errs, h1, h2, h3, h4⟩ :=
        ih (idx + 1) st2 { acc with created := acc.created + 1 }
      refine ⟨dc + 1, du, ds, errs, ?_, by simp at h2 ⊢; omega, h3, ?_⟩
      · rw [h1]
        refine CsvImportResult.ext ?_ ?_ ?_ ?_ <;> simp <;> omega
      · intro e he
        obtain ⟨n, msg, hn1, hn2, hm⟩ := h4 e he
        exact ⟨n, msg, by omega, by simp; omega, hm⟩
    | (st2, .updatedOk) =>
      obtain ⟨dc, du, ds, errs, h1, h2, h3, h4⟩ :=
        ih (idx + 1) st2 { acc with updated := acc.updated + 1 }
      refine ⟨dc, du + 1, ds, errs, ?_, by simp at h2 ⊢; omega, h3, ?_⟩
      · rw [h1]
        refine CsvImportResult.ext ?_ ?_ ?_ ?_ <;> simp <;> omega
      · intro e he
        obtain ⟨n, msg, hn1, hn2, hm⟩ := h4 e he
        exact ⟨n, msg, by omega, by simp; omega, hm⟩
    | (st2, .failed msg) =>
      obtain ⟨dc, du, ds, errs, h1, h2, h3, h4⟩ :=
        ih (idx + 1) st2
          { acc with skipped := acc.skipped + 1,
                     errors := acc.errors ++ ["Line " ++ pyStr idx ++ ": " ++ msg] }
      refine ⟨dc, du, ds + 1, ("Line " ++ pyStr idx ++ ": " ++ msg) :: errs,
        ?_, by simp at h2 ⊢; omega, by simp [h3], ?_⟩
      · rw [h1]
        refine CsvImportResult.ext ?_ ?_ ?_ ?_ <;> simp <;> omega
      · intro e he
        rcases List.mem_cons.mp he with rfl | he'
        · exact ⟨idx, msg, Nat.le_refl idx, by simp, rfl⟩
        · obtain ⟨n, m2, hn1, hn2, hm⟩ := h4 e he'
          exact ⟨n, m2, by omega, by simp; omega, hm⟩

/-- C3: in every CSV import batch, a failing row increments the skipped
counter and appends an error of the form `"Line <n>: <message>"` whose line
number counts the header as line 1 (data row `k` is line `k+1`), while
processing continues: the counters always sum to the number of data rows and
there is one error per skipped row.  In the specification's 3-row example
whose second data row has a blank `unit`, the result is `created = 2,
skipped = 1, errors = ["Line 3: full_name and unit are required"]`, and the
first and third rows are committed. -/
theorem csv_row_failures_isolated :
    (∀ now user st rows,
      (import_csv now user st rows).2.created + (import_csv now user st rows).2.updated +
        (import_csv now user st rows).2.skipped = rows.length ∧
      (import_csv now user st rows).2.errors.length = (import_csv now user st rows).2.skipped ∧
      (∀ e ∈ (import_csv now user st rows).2.errors, ∃ n msg, 2 ≤ n ∧ n < 2 + rows.length ∧
        e = "Line " ++ pyStr n ++ ": " ++ msg)) ∧
    (import_csv 0 adminUser emptySt csvExampleRows).2 =
      ⟨2, 0, 1, ["Line 3: full_name and unit are required"]⟩ ∧
    (import_csv 0 adminUser emptySt csvExampleRows).1.residents.map Resident.full_name =
      ["A", "C"] := by
  have hpy : pyStr 3 = "3" := by
    show String.mk (natDecChars 3) = "3"
    rw [show natDecChars 3 = ['3'] by rw [natDecChars]; rfl]
  refine ⟨?_, ?_, by decide⟩
  case refine_2 =>
    have hred : (import_csv 0 adminUser emptySt csvExampleRows).2 =
        ⟨2, 0, 1, [("Line " ++ pyStr 3 ++ ": ") ++ "full_name and unit are required"]⟩ := rfl
    rw [hred, hpy]
    decide
  intro now user st rows
  have hres : (import_csv now user st rows).2 =
      (importLoop now user rows 2 st ⟨0, 0, 0, []⟩).2 := rfl
  obtain ⟨dc, du, ds, errs, h1, h2, h3, h4⟩ := importLoop_acc now user rows 2 st ⟨0, 0, 0, []⟩
  rw [hres, h1]
  refine ⟨by simpa using h2, by simpa using h3, ?_⟩
  intro e he
  simp only [List.nil_append] at he
  exact h4 e he

theorem optKey_lt_imp {x y : Option String} (h : optKey x < optKey y) :
    nullsLastLT x y := by
  match x, y with
  | some a, some b =>
    unfold optKey at h
    rw [Prod.Lex.lt_iff] at h
    rcases h with h | ⟨_, h⟩
    · exact absurd h (by simp)
    · exact h
  | some a, none => trivial
  | none, some b =>
    unfold optKey at h
    rw [Prod.Lex.lt_iff] at h
    rcases h with h | ⟨h, _⟩
    · exact absurd h (by simp [Bool.lt_iff])
    · exact absurd h (by simp)
  | none, none =>
    exact absurd h (lt_irrefl _)

theorem optKey_inj {x y : Option String} (h : optKey x = optKey y) : x = y := by
  match x, y with
  | some a, some b =>
    unfold optKey at h
    rw [toLex_inj, Prod.mk.injEq] at h
    rw [h.2]
  | some a, none =>
    unfold optKey at h
    rw [toLex_inj, Prod.mk.injEq] at h
    exact absurd h.1 (by simp)
  | none, some b =>
    unfold optKey at h
    rw [toLex_inj, Prod.mk.injEq] at h
    exact absurd h.1 (by simp)
  | none, none => rfl

theorem sqlLE_imp_claimOrder {a b : Resident} (h : sqlLE a b = true) :
    claimOrder a b := by
  have hk : sortKey a ≤ sortKey b := of_decide_eq_true h
  unfold sortKey at hk
  rw [Prod.Lex.le_iff] at hk
  unfold claimOrder
  rcases hk with hlt | ⟨heq, hk2⟩
  · left
    rw [Bool.lt_iff] at hlt
    exact ⟨by simpa using hlt.1, by simpa using hlt.2⟩
  · right
    refine ⟨by simpa using heq, ?_⟩
    rw [Prod.Lex.le_iff] at hk2
    rcases hk2 with hlt | ⟨heq2, hk3⟩
    · exact Or.inl (optKey_lt_imp hlt)
    · refine Or.inr ⟨optKey_inj heq2, ?_⟩
      rw [Prod.Lex.le_iff] at hk3
      rcases hk3 with hlt | ⟨heq3, hk4⟩
      · exact Or.inl (optKey_lt_imp hlt)
      · refine Or.inr ⟨optKey_inj heq3, ?_⟩
        rw [Prod.Lex.le_iff] at hk4
        rcases hk4 with hlt | ⟨heq4, hk5⟩
        · exact Or.inl (optKey_lt_imp (x := some a.unit) (y := some b.unit) hlt)
        · exact Or.inr ⟨Option.some.inj
            (optKey_inj (x := some a.unit) (y := some b.unit) heq4), hk5⟩

theorem sqlLE_trans_bool (a b c : Resident) (h1 : sqlLE a b = true)
    (h2 : sqlLE b c = true) : sqlLE a c = true :=
  decide_eq_true (le_trans (of_decide_eq_true h1) (of_decide_eq_true h2))

theorem sqlLE_total_bool (a b : Resident) : (sqlLE a b || sqlLE b a) = true := by
  rcases le_total (sortKey a) (sortKey b) with h | h
  · rw [Bool.or_eq_true]
    exact Or.inl (decide_eq_true h)
  · rw [Bool.or_eq_true]
    exact Or.inr (decide_eq_true h)

/-- C8: the listing returned by `list_residents` — under any filter and any
pagination — is ordered with every active resident before any inactive one,
then by building, floor, unit and full_name ascending with nulls last and
ties broken by the later keys. -/
theorem list_residents_ordered (db : List Resident) (f : ListFilter)
    (limit offset : Nat) :
    ((list_residents db f limit offset).1).Pairwise claimOrder := by
  unfold list_residents
  have hs : ((db.filter (matchesFilter f)).mergeSort sqlLE).Pairwise
      (fun x y => sqlLE x y = true) :=
    List.sorted_mergeSort sqlLE_trans_bool sqlLE_total_bool _
  have hp : ((db.filter (matchesFilter f)).mergeSort sqlLE).Pairwise claimOrder :=
    hs.imp (fun h => sqlLE_imp_claimOrder h)
  exact List.Pairwise.sublist
    ((List.take_sublist _ _).trans (List.drop_sublist _ _)) hp

theorem fieldFrame_trans {x y z : Resident} (h1 : fieldFrame x y)
    (h2 : fieldFrame y z) : fieldFrame x z :=
  ⟨h1.1.trans h2.1, h1.2.1.trans h2.2.1, h1.2.2.1.trans h2.2.2.1,
   h1.2.2.2.trans h2.2.2.2⟩

theorem forall2_fieldFrame_trans :
    ∀ {a b c : List Resident}, List.Forall₂ fieldFrame a b →
      List.Forall₂ fieldFrame b c → List.Forall₂ fieldFrame a c := by
  intro a b c h1
  induction h1 generalizing c with
  | nil =>
    intro h2
    cases h2
    exact .nil
  | cons hxy _ ih =>
    intro h2
    cases h2 with
    | cons hyz h2' => exact .cons (fieldFrame_trans hxy hyz) (ih h2')

theorem importLoop_cons_updated (now : Nat) (user : CurrentUser) (row : Row)
    (rest : List Row) (idx : Nat) (st st2 : St) (acc : CsvImportResult)
    (h : processRow now user st idx row = (st2, .updatedOk)) :
    importLoop now user (row :: rest) idx st acc =
      importLoop now user rest (idx + 1) st2 { acc with updated := acc.updated + 1 } := by
  conv_lhs => rw [importLoop]
  rw [h]

theorem processRow_exportRow (now : Nat) (user : CurrentUser) (st : St) (idx : Nat)
    (r : Resident)
    (hfn : pyStrip r.full_name ≠ "") (hun : pyStrip r.unit ≠ "")
    (hget : get_resident st.residents r.id = some r) :
    processRow now user st idx (exportRow r) =
      (write_audit_log now
        { st with residents := st.residents.map (fun x =>
            if x.id = r.id then
              applyPatch now
                (buildPatch (pyStrip r.full_name) (pyStrip r.unit) (exportRow r)) x
            else x) }
        (some user) "IMPORT_UPDATE_RESIDENT" (some "resident") (some (pyStr r.id))
        (some r)
        (some (applyPatch now
          (buildPatch (pyStrip r.full_name) (pyStrip r.unit) (exportRow r)) r))
        (some (.importRow idx)),
       .updatedOk) := by
  have hne : (buildPatch (pyStrip r.full_name) (pyStrip r.unit) (exportRow r)).isEmpty
      = false := by
    unfold ResidentPatch.isEmpty buildPatch
    simp
  have hupd : update_resident now st.residents r.id
      (buildPatch (pyStrip r.full_name) (pyStrip r.unit) (exportRow r)) =
      (some (applyPatch now
        (buildPatch (pyStrip r.full_name) (pyStrip r.unit) (exportRow r)) r),
       st.residents.map (fun x =>
         if x.id = r.id then
           applyPatch now
             (buildPatch (pyStrip r.full_name) (pyStrip r.unit) (exportRow r)) x
         else x)) := by
    unfold update_resident
    rw [if_neg (by simp [hne]), hget]
  simp only [processRow,
    show rowGet (exportRow r) "full_name" = some r.full_name from rfl,
    show rowGet (exportRow r) "unit" = some r.unit from rfl,
    show rowGet (exportRow r) "id" = some (pyStr r.id) from rfl,
    Option.getD_some, pyStrip_pyStr, pyInt?_pyStr, hget]
  rw [if_neg (not_or.mpr ⟨hfn, hun⟩), if_neg (pyStr_ne_empty r.id)]
  rw [hupd]

theorem roundtrip_loop (now : Nat) (user : CurrentUser) :
    ∀ (l : List Resident) (st : St) (idx : Nat) (acc : CsvImportResult),
    (∀ r ∈ l, get_resident st.residents r.id = some r) →
    ((l.map Resident.id).Nodup) →
    (∀ r ∈ l, pyStrip r.full_name ≠ "" ∧ pyStrip r.unit ≠ "") →
    (importLoop now user (l.map exportRow) idx st acc).2 =
      { acc with updated := acc.updated + l.length } ∧
    List.Forall₂ fieldFrame
      (importLoop now user (l.map exportRow) idx st acc).1.residents st.residents := by
  intro l
  induction l with
  | nil =>
    intro st idx acc _ _ _
    constructor
    · show acc = _
      refine CsvImportResult.ext rfl ?_ rfl rfl
      simp
    · show List.Forall₂ fieldFrame st.residents st.residents
      rw [List.forall₂_same]
      exact fun x _ => ⟨rfl, rfl, rfl, rfl⟩
  | cons r rest ih =>
    intro st idx acc hget hnodup hnb
    have hhd := hnb r (List.mem_cons_self r rest)
    rw [List.map_cons,
      importLoop_cons_updated now user (exportRow r) (rest.map exportRow) idx st _ acc
        (processRow_exportRow now user st idx r hhd.1 hhd.2
          (hget r (List.mem_cons_self r rest)))]
    rw [List.map_cons, List.nodup_cons] at hnodup
    have hmap : ∀ x : Resident,
        ((fun x => if x.id = r.id then
          applyPatch now
            (buildPatch (pyStrip r.full_name) (pyStrip r.unit) (exportRow r)) x
        else x) x).id = x.id := by
      intro x
      dsimp only
      by_cases hx : x.id = r.id
      · rw [if_pos hx]
        exact applyPatch_id ..
      · rw [if_neg hx]
    obtain ⟨ih1, ih2⟩ := ih
      (write_audit_log now
        { st with residents := st.residents.map (fun x =>
            if x.id = r.id then
              applyPatch now
                (buildPatch (pyStrip r.full_name) (pyStrip r.unit) (exportRow r)) x
            else x) }
        (some user) "IMPORT_UPDATE_RESIDENT" (some "resident") (some (pyStr r.id))
        (some r)
        (some (applyPatch now
          (buildPatch (pyStrip r.full_name) (pyStrip r.unit) (exportRow r)) r))
        (some (.importRow idx)))
      (idx + 1) { acc with updated := acc.updated + 1 }
      (by
        intro r2 hr2
        have hne2 : r2.id ≠ r.id := by
          intro he
          exact hnodup.1 (he ▸ List.mem_map_of_mem Resident.id hr2)
        have hmapped : get_resident (st.residents.map (fun x => if x.id = r.id then
            applyPatch now (buildPatch (pyStrip r.full_name) (pyStrip r.unit) (exportRow r)) x
          else x)) r2.id = some (if r2.id = r.id then
            applyPatch now (buildPatch (pyStrip r.full_name) (pyStrip r.unit) (exportRow r)) r2
          else r2) := by
          rw [get_resident_map_of_id_eq _ _ hmap, hget r2 (List.mem_cons_of_mem r hr2)]
          rfl
        show get_resident (st.residents.map _) r2.id = some r2
        rw [hmapped, if_neg hne2])
      hnodup.2
      (fun r2 hr2 => hnb r2 (List.mem_cons_of_mem r hr2))
    refine ⟨?_, ?_⟩
    · rw [ih1]
      refine CsvImportResult.ext rfl ?_ rfl rfl
      show acc.updated + 1 + rest.length = acc.updated + (rest.length + 1)
      omega
    · refine forall2_fieldFrame_trans ih2 ?_
      show List.Forall₂ fieldFrame (st.residents.map _) st.residents
      rw [List.forall₂_map_left_iff, List.forall₂_same]
      intro x _
      by_cases hx : x.id = r.id
      · rw [if_pos hx]
        exact ⟨rfl, rfl, rfl, rfl⟩
      · rw [if_neg hx]
        exact ⟨rfl, rfl, rfl, rfl⟩

/-- C5 (counterexample): a stored resident whose `full_name` is whitespace
only (storable — the create schema neither trims nor rejects it, and it is a
non-empty string) exports to a row that the re-import then rejects as
blank-after-trim: the round trip yields `created = 0, updated = 0,
skipped = 1`, not "only updates" with `updated = N, skipped = 0`. -/
theorem roundtrip_blank_name_skipped :
    (export_csv 0 adminUser ⟨[blankNameResident], 2, []⟩ {}).2 =
      [exportRow blankNameResident] ∧
    (import_csv 1 adminUser (export_csv 0 adminUser ⟨[blankNameResident], 2, []⟩ {}).1
        (export_csv 0 adminUser ⟨[blankNameResident], 2, []⟩ {}).2).2.created = 0 ∧
    (import_csv 1 adminUser (export_csv 0 adminUser ⟨[blankNameResident], 2, []⟩ {}).1
        (export_csv 0 adminUser ⟨[blankNameResident], 2, []⟩ {}).2).2.updated = 0 ∧
    (import_csv 1 adminUser (export_csv 0 adminUser ⟨[blankNameResident], 2, []⟩ {}).1
        (export_csv 0 adminUser ⟨[blankNameResident], 2, []⟩ {}).2).2.skipped = 1 := by
  have hitems : (list_residents [blankNameResident] ({} : ListFilter) 100000 0).1 =
      [blankNameResident] := by
    show (((List.filter (matchesFilter {}) [blankNameResident]).mergeSort sqlLE).drop 0).take
      100000 = _
    rw [show List.filter (matchesFilter {}) [blankNameResident] = [blankNameResident] from rfl,
        List.mergeSort_singleton]
    rfl
  have hrows : (export_csv 0 adminUser ⟨[blankNameResident], 2, []⟩ {}).2 =
      [exportRow blankNameResident] := by
    show ((list_residents [blankNameResident] ({} : ListFilter) 100000 0).1).map exportRow = _
    rw [hitems]
    rfl
  refine ⟨hrows, ?_, ?_, ?_⟩ <;> rw [hrows] <;> decide

/-- C5 (amended): provided every stored resident has a distinct id (the
primary key), a `full_name` and `unit` that are non-blank after trimming, and
the table fits the export's single 100000-row page, re-importing the export
performs only updates — `created = 0, updated = N, skipped = 0, errors = []` —
and every column the import's update statement never writes (`id`,
`photo_url`, `created_at`, `updated_at`) keeps its value.  (A whitespace-only
`full_name` or `unit` makes the re-import skip that row instead — see the
counterexample — and an inactive resident's `deactivated_at` is overwritten
with the import-time clock by the `is_active` CASE rule.) -/
theorem export_import_roundtrip (now1 now2 : Nat) (user : CurrentUser) (st : St)
    (hnodup : (st.residents.map Resident.id).Nodup)
    (hlen : st.residents.length ≤ 100000)
    (hnb : ∀ r ∈ st.residents, pyStrip r.full_name ≠ "" ∧ pyStrip r.unit ≠ "") :
    (import_csv now2 user (export_csv now1 user st {}).1
      (export_csv now1 user st {}).2).2 = ⟨0, st.residents.length, 0, []⟩ ∧
    List.Forall₂ fieldFrame
      (import_csv now2 user (export_csv now1 user st {}).1
        (export_csv now1 user st {}).2).1.residents
      st.residents := by
  have hfilter : st.residents.filter (matchesFilter {}) = st.residents :=
    List.filter_eq_self.mpr (fun a _ => rfl)
  have hperm : ((list_residents st.residents ({} : ListFilter) 100000 0).1).Perm
      st.residents := by
    show (((((st.residents.filter (matchesFilter {})).mergeSort sqlLE)).drop 0).take
      100000).Perm st.residents
    rw [hfilter, List.drop_zero,
        List.take_of_length_le
          (by rw [(List.mergeSort_perm st.residents sqlLE).length_eq]; exact hlen)]
    exact List.mergeSort_perm st.residents sqlLE
  have hmem : ∀ r ∈ (list_residents st.residents ({} : ListFilter) 100000 0).1,
      r ∈ st.residents := fun r hr => hperm.mem_iff.mp hr
  have hhyp1 : ∀ r ∈ (list_residents st.residents ({} : ListFilter) 100000 0).1,
      get_resident (export_csv now1 user st {}).1.residents r.id = some r := by
    intro r hr
    show get_resident st.residents r.id = some r
    exact get_resident_of_nodup hnodup (hmem r hr)
  obtain ⟨h1, h2⟩ := roundtrip_loop now2 user
    (list_residents st.residents ({} : ListFilter) 100000 0).1
    (export_csv now1 user st {}).1 2 ⟨0, 0, 0, []⟩
    hhyp1
    (((hperm.map Resident.id).nodup_iff).mpr hnodup)
    (fun r hr => hnb r (hmem r hr))
  constructor
  · show (importLoop now2 user
        (((list_residents st.residents ({} : ListFilter) 100000 0).1).map exportRow) 2
        (export_csv now1 user st {}).1 ⟨0, 0, 0, []⟩).2 = _
    rw [h1]
    refine CsvImportResult.ext rfl ?_ rfl rfl
    show 0 + (list_residents st.residents ({} : ListFilter) 100000 0).1.length =
      st.residents.length
    rw [Nat.zero_add, hperm.length_eq]
  · show List.Forall₂ fieldFrame
      (importLoop now2 user
        (((list_residents st.residents ({} : ListFilter) 100000 0).1).map exportRow) 2
        (export_csv now1 user st {}).1 ⟨0, 0, 0, []⟩).1.residents
      st.residents
    exact h2

theorem export_import_roundtrip_witness :
    (import_csv 9 adminUser
        (export_csv 8 adminUser ⟨[sampleResident, inactiveResident], 3, []⟩ {}).1
        (export_csv 8 adminUser ⟨[sampleResident, inactiveResident], 3, []⟩ {}).2).2 =
      ⟨0, 2, 0, []⟩ ∧
    List.Forall₂ fieldFrame
      (import_csv 9 adminUser
        (export_csv 8 adminUser ⟨[sampleResident, inactiveResident], 3, []⟩ {}).1
        (export_csv 8 adminUser ⟨[sampleResident, inactiveResident], 3, []⟩ {}).2).1.residents
      [sampleResident, inactiveResident] := by
  have h := export_import_roundtrip 8 9 adminUser ⟨[sampleResident, inactiveResident], 3, []⟩
    (by decide) (by decide) (by decide)
  exact ⟨h.1, h.2⟩

end ResidentDirectory
